import Mathlib

/-!
Verification of the submit-and-poll workflow of `ImageProcessor.tsx`
(`handleProcess`, `sleep`, `onProcessComplete`).

The component is embedded as a pure function from its props, an environment
describing the HTTP responses, and a fuel bound on the poll loop, to a trace
of observable effects (state setters, fetches, sleeps, toasts, the
`processComplete` event) together with an outcome flag recording whether the
function returned or whether the poll loop was still running when the fuel
ran out.  The final UI state is obtained by folding the `setStatus` /
`setStatusMessage` effects over the initial state.
-/

namespace ImageProcessor

/-- The local UI status enum:
`useState<'idle' | 'uploading' | 'processing' | 'complete' | 'error'>('idle')`. -/
inductive UIStatus
  | idle
  | uploading
  | processing
  | complete
  | error
deriving DecidableEq, Repr

/-- The `output` field of a prediction JSON body: absent (`undefined`),
a single URL string, or an array of URL strings. -/
inductive JsOutput
  | undef
  | str (s : String)
  | arr (elems : List String)
deriving DecidableEq, Repr

/-- A value thrown inside the `try` block: either a JS `Error` carrying a
message, or any non-`Error` value. -/
inductive Thrown
  | error (msg : String)
  | other
deriving DecidableEq, Repr

/-- The parsed JSON body of a successful creation response
(`/api/replicate`): at least `{id, status}`. -/
structure CreateBody where
  id : String
  status : String
deriving DecidableEq, Repr

/-- The creation request outcome: `ok` response with a parsed body, a
non-`ok` response whose parsed body has an optional `error` field, or an
exception thrown by `fetch`/`json()`. -/
inductive CreateResponse
  | ok (body : CreateBody)
  | notOk (errorField : Option String)
  | exn (t : Thrown)
deriving DecidableEq, Repr

/-- The parsed JSON body of a successful status response
(`/api/predictions/{id}`): `{status, output?, error?}`. -/
structure PollBody where
  status : String
  output : JsOutput
  error : Option String
deriving DecidableEq, Repr

/-- The outcome of one status fetch: `ok` response with a parsed body, a
non-`ok` response (the code throws without reading the body), or an
exception thrown by `fetch`/`json()`. -/
inductive PollResponse
  | ok (body : PollBody)
  | notOk
  | exn (t : Thrown)
deriving DecidableEq, Repr

/-- The observable effects performed by `handleProcess`. -/
inductive Effect
  | toastError (msg : String)
  | fetchCreate
  | fetchStatus (id : String)
  | sleepMs (ms : Nat)
  | setStatus (s : UIStatus)
  | setMessage (m : String)
  | dispatchProcessComplete (outputUrl : Option String)
  | logError
deriving DecidableEq, Repr

/-- How a run of `handleProcess` ends in the fuel-bounded model:
`finished` when the function returned, `running` when the poll loop was
still going as the fuel ran out. -/
inductive RunOutcome
  | finished
  | running
deriving DecidableEq, Repr

/-- Result of the `try` block: normal completion, an uncaught throw
(to be handled by the `catch`), or the loop still running at fuel 0. -/
inductive TryResult
  | done
  | outOfFuel
  | thrown (t : Thrown)
deriving DecidableEq, Repr

/-- The component's props and context that `handleProcess` reads:
the authenticated user (present or not), the selected file (present or
not), and the preview URL. -/
structure Props where
  user : Bool
  selectedFile : Bool
  previewUrl : Option String
deriving DecidableEq, Repr

/-- The environment of a run: the creation response and the stream of
status responses, indexed by poll iteration. -/
structure Env where
  createResp : CreateResponse
  pollResps : Nat → PollResponse

/-- JS `x || dflt` on a string field that may be absent: absent and the
empty string are falsy. -/
def jsOr (o : Option String) (dflt : String) : String :=
  match o with
  | none => dflt
  | some s => if s = "" then dflt else s

/-- Output normalization `Array.isArray(output) ? output[0] : output`:
`output[0]` of an empty
array is `undefined`, a plain string passes through, `undefined` stays
`undefined`.  `none` models `undefined`. -/
def outputUrlOf : JsOutput → Option String
  | .undef => none
  | .str s => some s
  | .arr [] => none
  | .arr (x :: _) => some x

/-- The message the `catch` handler displays:
`error instanceof Error ? error.message : 'Failed to process image'`. -/
def catchMsg : Thrown → String
  | .error m => m
  | .other => "Failed to process image"

/-- The effects of the `catch` block: `logger.error(...)`,
`setStatus('error')`, `setStatusMessage(...)`, `toast.error(...)`. -/
def catchEffects (t : Thrown) : List Effect :=
  [.logError, .setStatus .error, .setMessage (catchMsg t),
   .toastError "Processing failed. Please try again."]

/-- One or more iterations of the poll loop body, given that the loop
guard (which reads only the never-reassigned creation response) holds.
`fuel` bounds the number of iterations, `k` indexes the status-response
stream.  Each iteration: `await sleep(1000)`, fetch
`/api/predictions/{id}`, throw on a non-`ok` response, set the message to
`Processing: <status>`, throw on `"failed"`, and on `"succeeded"` set the
status to `complete`, set the message, dispatch `processComplete`, and
`break`. -/
def pollIter (env : Env) (id : String) : Nat → Nat → List Effect × TryResult
  | 0, _ => ([], .outOfFuel)
  | fuel + 1, k =>
    match env.pollResps k with
    | .exn t => ([.sleepMs 1000, .fetchStatus id], .thrown t)
    | .notOk =>
        ([.sleepMs 1000, .fetchStatus id],
         .thrown (.error "Failed to check prediction status"))
    | .ok body =>
        if body.status = "failed" then
          ([.sleepMs 1000, .fetchStatus id,
            .setMessage ("Processing: " ++ body.status)],
           .thrown (.error (jsOr body.error "Processing failed")))
        else if body.status = "succeeded" then
          ([.sleepMs 1000, .fetchStatus id,
            .setMessage ("Processing: " ++ body.status),
            .setStatus .complete, .setMessage "Processing complete!",
            .dispatchProcessComplete (outputUrlOf body.output)],
           .done)
        else
          let r := pollIter env id fuel (k + 1)
          ([.sleepMs 1000, .fetchStatus id,
            .setMessage ("Processing: " ++ body.status)] ++ r.1, r.2)

/-- The `try` block of `handleProcess`: set status `uploading` and the
starting message, POST the creation request, throw on a non-`ok` response
(`error.error || 'Failed to process image'`), otherwise set status
`processing` and run the poll loop — whose guard reads the original
creation response's status, so the loop body never runs when that status
is already terminal. -/
def tryBlock (env : Env) (fuel : Nat) : List Effect × TryResult :=
  let pre : List Effect :=
    [.setStatus .uploading, .setMessage "Starting image processing...",
     .fetchCreate]
  match env.createResp with
  | .exn t => (pre, .thrown t)
  | .notOk e => (pre, .thrown (.error (jsOr e "Failed to process image")))
  | .ok body =>
    if body.status ≠ "succeeded" ∧ body.status ≠ "failed" then
      let r := pollIter env body.id fuel 0
      ((pre ++ [.setStatus .processing]) ++ r.1, r.2)
    else
      (pre ++ [.setStatus .processing], .done)

/-- JS truthiness of `previewUrl`: `null`/absent and `""` are falsy. -/
def strTruthy : Option String → Bool
  | none => false
  | some s => s ≠ ""

/-- The function `handleProcess`: return after a toast when no user is
present; return
silently when the selected file or the preview URL is missing; otherwise
run the `try` block and, when it throws, the `catch` block. -/
def handleProcess (p : Props) (env : Env) (fuel : Nat) :
    List Effect × RunOutcome :=
  if p.user = false then
    ([.toastError "Please log in to continue"], .finished)
  else if p.selectedFile = false ∨ strTruthy p.previewUrl = false then
    ([], .finished)
  else
    match tryBlock env fuel with
    | (tr, .done) => (tr, .finished)
    | (tr, .outOfFuel) => (tr, .running)
    | (tr, .thrown t) => (tr ++ catchEffects t, .finished)

/-- The component's UI state: the `status` and `statusMessage` fields. -/
structure UIState where
  status : UIStatus
  message : String
deriving DecidableEq, Repr

/-- How one effect updates the UI state: only `setStatus` and
`setMessage` write it. -/
def applyEffect (st : UIState) : Effect → UIState
  | .setStatus s => { st with status := s }
  | .setMessage m => { st with message := m }
  | _ => st

/-- Fold a trace of effects over a UI state. -/
def runState (st : UIState) (tr : List Effect) : UIState :=
  tr.foldl applyEffect st

/-- The initial UI state: status `idle`, empty message. -/
def initState : UIState := ⟨.idle, ""⟩

/-- The UI state after a run of `handleProcess` starting from the
initial state. -/
def finalState (p : Props) (env : Env) (fuel : Nat) : UIState :=
  runState initState (handleProcess p env fuel).1

/-- Is an effect a network call (`fetch`)? -/
def isNetworkCall : Effect → Bool
  | .fetchCreate => true
  | .fetchStatus _ => true
  | _ => false

/-- The number of network calls in a trace. -/
def networkCalls (tr : List Effect) : Nat :=
  (tr.filter isNetworkCall).length

/-- Is an effect a status fetch? -/
def isStatusFetch : Effect → Bool
  | .fetchStatus _ => true
  | _ => false

/-- The number of status fetches in a trace. -/
def statusFetchCount (tr : List Effect) : Nat :=
  (tr.filter isStatusFetch).length

/-- The sequence of values written to the UI `status` field by a trace. -/
def statusWrites (tr : List Effect) : List UIStatus :=
  tr.filterMap fun e =>
    match e with
    | .setStatus s => some s
    | _ => none

/-- The virtual times (milliseconds of accumulated sleep) at which the
status fetches of a trace occur, starting the clock at `t`. -/
def fetchTimes : List Effect → Nat → List Nat
  | [], _ => []
  | .sleepMs ms :: rest, t => fetchTimes rest (t + ms)
  | .fetchStatus _ :: rest, t => t :: fetchTimes rest t
  | _ :: rest, t => fetchTimes rest t

/-- Total sleep time of a trace, in milliseconds. -/
def elapsed : List Effect → Nat
  | [] => 0
  | .sleepMs ms :: rest => ms + elapsed rest
  | _ :: rest => elapsed rest

/-- No status fetch anywhere in the trace. -/
def noStatusFetch (tr : List Effect) : Bool :=
  tr.all fun e => !isStatusFetch e

/-- Scan a trace up to the run's reaction to a terminal observation — the
status write to `complete` (a `"succeeded"` poll) or to `error` (the
`catch` handler, reached in particular on a `"failed"` poll) — and require
that no status fetch occurs after it. -/
def noFetchAfterTerminal : List Effect → Bool
  | [] => true
  | .setStatus .complete :: rest => noStatusFetch rest
  | .setStatus .error :: rest => noStatusFetch rest
  | _ :: rest => noFetchAfterTerminal rest

/-- The forward order on UI statuses:
`idle → uploading → processing → (complete | error)`. -/
def rank : UIStatus → Nat
  | .idle => 0
  | .uploading => 1
  | .processing => 2
  | .complete => 3
  | .error => 3

/-- A status response that is `ok` with a non-terminal status. -/
def okNonTerminal (r : PollResponse) : Prop :=
  ∃ b, r = PollResponse.ok b ∧ b.status ≠ "succeeded" ∧ b.status ≠ "failed"

/-- The trace of a sequence of complete invocations of `handleProcess`,
one after the other. -/
def runsTrace : List (Props × Env × Nat) → List Effect
  | [] => []
  | (p, env, fuel) :: rest => (handleProcess p env fuel).1 ++ runsTrace rest

/-- A forward transition of the UI status, or a reset to `uploading` by a
fresh submission. -/
def stepOK (a b : UIStatus) : Prop :=
  rank a < rank b ∨ b = UIStatus.uploading

/-! ### Concrete environments used by witnesses and counterexamples -/

/-- All props present: a user, a file, a preview URL. -/
def pAll : Props := ⟨true, true, some "data:image/png;base64,AAAA"⟩

/-- Creation succeeds with status `"starting"`; every status poll answers
`"processing"`. -/
def envIdle : Env :=
  ⟨.ok ⟨"p1", "starting"⟩, fun _ => .ok ⟨"processing", .undef, none⟩⟩

/-- Creation succeeds with status `"starting"`; the polls answer
`"starting"`, `"processing"`, then `"succeeded"` with a single output
URL. -/
def envSuccess : Env :=
  ⟨.ok ⟨"p1", "starting"⟩, fun k =>
    if k = 0 then .ok ⟨"starting", .undef, none⟩
    else if k = 1 then .ok ⟨"processing", .undef, none⟩
    else .ok ⟨"succeeded", .str "https://x/out.png", none⟩⟩

/-- Creation succeeds with a body whose status is already `"failed"`. -/
def envCreateFailed : Env := ⟨.ok ⟨"p1", "failed"⟩, fun _ => .notOk⟩

/-- The creation response is non-`ok` and its body's `error` field is the
empty string (present but falsy in JS). -/
def envCreateBadEmpty : Env := ⟨.notOk (some ""), fun _ => .notOk⟩

/-- Creation succeeds with status `"starting"`; the first poll answers
`"failed"` with `error: "oom"`. -/
def envPollFailed : Env :=
  ⟨.ok ⟨"p1", "starting"⟩, fun _ => .ok ⟨"failed", .undef, some "oom"⟩⟩

/-! ### Helper lemmas -/

theorem runState_append (st : UIState) (a b : List Effect) :
    runState st (a ++ b) = runState (runState st a) b := by
  simp [runState, List.foldl_append]

theorem runState_catch (st : UIState) (tr : List Effect) (t : Thrown) :
    runState st (tr ++ catchEffects t) = ⟨.error, catchMsg t⟩ := by
  rw [runState_append]
  simp [runState, catchEffects, applyEffect]

theorem statusWrites_append (a b : List Effect) :
    statusWrites (a ++ b) = statusWrites a ++ statusWrites b := by
  simp [statusWrites, List.filterMap_append]

/-- When the `try` block throws, `handleProcess` (with user, file and
preview present) appends the `catch` block's effects and returns. -/
theorem handleProcess_thrown (p : Props) (env : Env) (fuel : Nat)
    (tr : List Effect) (t : Thrown)
    (hu : p.user = true) (hf : p.selectedFile = true)
    (hp : strTruthy p.previewUrl = true)
    (h : tryBlock env fuel = (tr, .thrown t)) :
    handleProcess p env fuel = (tr ++ catchEffects t, .finished) := by
  simp [handleProcess, hu, hf, hp, h]

/-! ### C2: missing user -/

/-- C2: with no authenticated user, `handleProcess` performs zero network
calls, returns before any fetch (the whole trace is the single toast), and
the UI status is left unchanged at `idle` when starting from the idle
state. -/
theorem noUser_noNetwork (p : Props) (env : Env) (fuel : Nat)
    (h : p.user = false) :
    handleProcess p env fuel
      = ([.toastError "Please log in to continue"], .finished) ∧
    networkCalls (handleProcess p env fuel).1 = 0 ∧
    (finalState p env fuel).status = UIStatus.idle := by
  have htr : handleProcess p env fuel
      = ([.toastError "Please log in to continue"], .finished) := by
    simp [handleProcess, h]
  refine ⟨htr, ?_, ?_⟩ <;>
    simp [htr, networkCalls, isNetworkCall, finalState, runState,
      applyEffect, initState]

/-- Witness for C2 at a concrete input. -/
theorem noUser_noNetwork_witness :
    handleProcess ⟨false, true, some "u"⟩ envIdle 3
      = ([.toastError "Please log in to continue"], .finished) ∧
    networkCalls (handleProcess ⟨false, true, some "u"⟩ envIdle 3).1 = 0 ∧
    (finalState ⟨false, true, some "u"⟩ envIdle 3).status = UIStatus.idle :=
  noUser_noNetwork ⟨false, true, some "u"⟩ envIdle 3 rfl

/-! ### C4: missing file or preview URL -/

/-- C4 counterexample: with an authenticated user but no selected file,
`handleProcess` returns with an empty trace — in particular no error is
surfaced locally (no status change, no message, no toast), contradicting
the claim that the abort comes "with a locally surfaced error". -/
theorem missingFile_counterexample :
    handleProcess ⟨true, false, none⟩ envIdle 3 = ([], .finished) ∧
    finalState ⟨true, false, none⟩ envIdle 3 = initState := by
  constructor <;> rfl

/-- C4 amended: with an authenticated user, if the selected file or its
preview URL is absent (or the preview URL is empty), the workflow returns
immediately with no network call and no user-visible effect at all: the
effect trace is empty and the UI state is unchanged. -/
theorem missingFile_amended (p : Props) (env : Env) (fuel : Nat)
    (hu : p.user = true)
    (h : p.selectedFile = false ∨ strTruthy p.previewUrl = false) :
    handleProcess p env fuel = ([], .finished) ∧
    networkCalls (handleProcess p env fuel).1 = 0 ∧
    finalState p env fuel = initState := by
  have htr : handleProcess p env fuel = ([], .finished) := by
    rcases h with h | h <;> simp [handleProcess, hu, h]
  refine ⟨htr, ?_, ?_⟩ <;> simp [htr, networkCalls, finalState, runState]

/-- Witness for C4 (amended) at a concrete input. -/
theorem missingFile_amended_witness :
    handleProcess ⟨true, false, none⟩ envIdle 3 = ([], .finished) ∧
    networkCalls (handleProcess ⟨true, false, none⟩ envIdle 3).1 = 0 ∧
    finalState ⟨true, false, none⟩ envIdle 3 = initState :=
  missingFile_amended ⟨true, false, none⟩ envIdle 3 rfl (Or.inl rfl)

/-! ### C10: creation response already terminal -/

/-- C10: the poll loop's guard reads only the creation response's status,
so when that status is already terminal (`"succeeded"` or `"failed"`) the
loop body never runs: the trace is exactly the four pre-loop effects — no
status fetch, no `processComplete` event, no error — and the run finishes
with UI status `processing` and the message `Starting image
processing...`. -/
theorem creationTerminal_skipsLoop (p : Props) (env : Env) (fuel : Nat)
    (b : CreateBody)
    (hu : p.user = true) (hf : p.selectedFile = true)
    (hp : strTruthy p.previewUrl = true)
    (hc : env.createResp = .ok b)
    (ht : b.status = "succeeded" ∨ b.status = "failed") :
    handleProcess p env fuel
      = ([.setStatus .uploading, .setMessage "Starting image processing...",
          .fetchCreate, .setStatus .processing], .finished) ∧
    statusFetchCount (handleProcess p env fuel).1 = 0 ∧
    (∀ u, Effect.dispatchProcessComplete u ∉ (handleProcess p env fuel).1) ∧
    finalState p env fuel = ⟨.processing, "Starting image processing..."⟩ := by
  have htry : tryBlock env fuel
      = ([.setStatus .uploading, .setMessage "Starting image processing...",
          .fetchCreate, .setStatus .processing], .done) := by
    rcases ht with ht | ht <;> simp [tryBlock, hc, ht]
  have htr : handleProcess p env fuel
      = ([.setStatus .uploading, .setMessage "Starting image processing...",
          .fetchCreate, .setStatus .processing], .finished) := by
    simp [handleProcess, hu, hf, hp, htry]
  refine ⟨htr, ?_, ?_, ?_⟩ <;>
    simp [htr, statusFetchCount, isStatusFetch, finalState, runState,
      applyEffect, initState]

/-- Witness for C10 at a concrete input (creation status `"failed"`). -/
theorem creationTerminal_skipsLoop_witness :
    handleProcess pAll envCreateFailed 5
      = ([.setStatus .uploading, .setMessage "Starting image processing...",
          .fetchCreate, .setStatus .processing], .finished) ∧
    statusFetchCount (handleProcess pAll envCreateFailed 5).1 = 0 ∧
    (∀ u, Effect.dispatchProcessComplete u ∉ (handleProcess pAll envCreateFailed 5).1) ∧
    finalState pAll envCreateFailed 5
      = ⟨.processing, "Starting image processing..."⟩ :=
  creationTerminal_skipsLoop pAll envCreateFailed 5 ⟨"p1", "failed"⟩
    rfl rfl rfl rfl (Or.inr rfl)

/-! ### C6: non-success creation response -/

/-- C6 counterexample: when the creation response is non-`ok` and its
body's `error` field is present but equal to the empty string, the
displayed message is the generic `Failed to process image`, not the error
field — JS `||` treats the empty string as absent. -/
theorem creationHttpError_counterexample :
    (finalState pAll envCreateBadEmpty 3).message = "Failed to process image" ∧
    envCreateBadEmpty.createResp = CreateResponse.notOk (some "") ∧
    (finalState pAll envCreateBadEmpty 3).message ≠ "" := by
  refine ⟨rfl, rfl, ?_⟩ ; decide

/-- C6 amended: for a non-`ok` creation response, the UI status goes
idle → uploading → error, and the displayed message equals the body's
`error` field when it is present and non-empty, falling back to
`Failed to process image` when it is absent or empty. -/
theorem creationHttpError_amended (p : Props) (env : Env) (fuel : Nat)
    (e : Option String)
    (hu : p.user = true) (hf : p.selectedFile = true)
    (hp : strTruthy p.previewUrl = true)
    (hc : env.createResp = .notOk e) :
    statusWrites (handleProcess p env fuel).1
      = [UIStatus.uploading, UIStatus.error] ∧
    (finalState p env fuel).status = UIStatus.error ∧
    (finalState p env fuel).message = jsOr e "Failed to process image" ∧
    (∀ s, e = some s → s ≠ "" → (finalState p env fuel).message = s) ∧
    (e = none → (finalState p env fuel).message = "Failed to process image") := by
  have htry : tryBlock env fuel
      = ([.setStatus .uploading, .setMessage "Starting image processing...",
          .fetchCreate],
         .thrown (.error (jsOr e "Failed to process image"))) := by
    simp [tryBlock, hc]
  have htr := handleProcess_thrown p env fuel _ _ hu hf hp htry
  have hst : finalState p env fuel
      = ⟨.error, catchMsg (.error (jsOr e "Failed to process image"))⟩ := by
    rw [finalState, htr]
    exact runState_catch _ _ _
  refine ⟨?_, ?_, ?_, ?_, ?_⟩
  · rw [htr]
    simp [statusWrites_append, statusWrites, catchEffects]
  · rw [hst]
  · rw [hst]
    simp [catchMsg]
  · intro s hs hne
    rw [hst]
    simp [catchMsg, jsOr, hs, hne]
  · intro hnone
    rw [hst]
    simp [catchMsg, jsOr, hnone]

/-- Witness for C6 (amended) at a concrete input. -/
theorem creationHttpError_amended_witness :
    statusWrites (handleProcess pAll envCreateBadEmpty 3).1
      = [UIStatus.uploading, UIStatus.error] ∧
    (finalState pAll envCreateBadEmpty 3).status = UIStatus.error ∧
    (finalState pAll envCreateBadEmpty 3).message
      = jsOr (some "") "Failed to process image" ∧
    (∀ s, some "" = some s → s ≠ "" →
      (finalState pAll envCreateBadEmpty 3).message = s) ∧
    (some "" = none →
      (finalState pAll envCreateBadEmpty 3).message = "Failed to process image") :=
  creationHttpError_amended pAll envCreateBadEmpty 3 (some "") rfl rfl rfl rfl

/-! ### C3: uniform error handling -/

/-- C3 counterexample: with no authenticated user — one of the error
kinds the claim enumerates — the UI status does not become `error`: the
trace is the single login toast and the status stays `idle`. -/
theorem errorUniformity_counterexample :
    handleProcess ⟨false, true, some "u"⟩ envSuccess 5
      = ([.toastError "Please log in to continue"], .finished) ∧
    (finalState ⟨false, true, some "u"⟩ envSuccess 5).status = UIStatus.idle ∧
    (finalState ⟨false, true, some "u"⟩ envSuccess 5).status ≠ UIStatus.error := by
  refine ⟨rfl, rfl, ?_⟩ ; decide

/-- C3 amended: every error thrown inside the `try` block — HTTP failure
on creation or polling, a polled `"failed"` status, or any other thrown
exception — ends uniformly: UI status `error`, the thrown error's message
recorded inline, and the transient `Processing failed` toast.  Missing
authentication instead leaves the UI state unchanged and only shows a
login toast. -/
theorem errorHandling_amended (p : Props) (env : Env) (fuel : Nat)
    (tr : List Effect) (t : Thrown)
    (hu : p.user = true) (hf : p.selectedFile = true)
    (hp : strTruthy p.previewUrl = true)
    (h : tryBlock env fuel = (tr, .thrown t)) :
    (finalState p env fuel).status = UIStatus.error ∧
    (finalState p env fuel).message = catchMsg t ∧
    Effect.toastError "Processing failed. Please try again."
      ∈ (handleProcess p env fuel).1 ∧
    (∀ q : Props, q.user = false →
      handleProcess q env fuel
        = ([.toastError "Please log in to continue"], .finished) ∧
      (finalState q env fuel).status = UIStatus.idle) := by
  have htr := handleProcess_thrown p env fuel tr t hu hf hp h
  have hst : finalState p env fuel = ⟨.error, catchMsg t⟩ := by
    rw [finalState, htr]
    exact runState_catch _ _ _
  refine ⟨by rw [hst], by rw [hst], ?_, ?_⟩
  · rw [htr]
    simp [catchEffects]
  · intro q hq
    have hq1 : handleProcess q env fuel
        = ([.toastError "Please log in to continue"], .finished) := by
      simp [handleProcess, hq]
    exact ⟨hq1, by simp [finalState, hq1, runState, applyEffect, initState]⟩

/-- Witness for C3 (amended) at a concrete input: an HTTP failure on
creation. -/
theorem errorHandling_amended_witness :
    (finalState pAll envCreateBadEmpty 3).status = UIStatus.error ∧
    (finalState pAll envCreateBadEmpty 3).message
      = catchMsg (.error "Failed to process image") ∧
    Effect.toastError "Processing failed. Please try again."
      ∈ (handleProcess pAll envCreateBadEmpty 3).1 ∧
    (∀ q : Props, q.user = false →
      handleProcess q envCreateBadEmpty 3
        = ([.toastError "Please log in to continue"], .finished) ∧
      (finalState q envCreateBadEmpty 3).status = UIStatus.idle) :=
  errorHandling_amended pAll envCreateBadEmpty 3
    [.setStatus .uploading, .setMessage "Starting image processing...",
     .fetchCreate]
    (.error "Failed to process image") rfl rfl rfl rfl

/-! ### Reaching a terminal polled status -/

/-- If the first `n` polled responses are `ok` and non-terminal and the
`n`-th is `ok` with a terminal status, the poll loop runs exactly `n + 1`
iterations (given enough fuel): on `"failed"` it throws
`error || 'Processing failed'`, on `"succeeded"` it sets the status to
`complete`, sets the message, dispatches the `processComplete` event and
breaks.  The effects before the terminal reaction contain no status
write. -/
theorem pollIter_reach (env : Env) (id : String) :
    ∀ (n k fuel : Nat) (b : PollBody),
    (∀ j, j < n → okNonTerminal (env.pollResps (k + j))) →
    env.pollResps (k + n) = .ok b →
    n < fuel →
    (b.status = "failed" →
      ∃ tr0, statusWrites tr0 = [] ∧
        pollIter env id fuel k
          = (tr0, .thrown (.error (jsOr b.error "Processing failed")))) ∧
    (b.status = "succeeded" →
      ∃ tr0, statusWrites tr0 = [] ∧
        pollIter env id fuel k
          = (tr0 ++ [.setStatus .complete, .setMessage "Processing complete!",
              .dispatchProcessComplete (outputUrlOf b.output)], .done)) := by
  intro n
  induction n with
  | zero =>
    intro k fuel b hpre hb hfuel
    obtain ⟨f, rfl⟩ : ∃ f, fuel = f + 1 := ⟨fuel - 1, by omega⟩
    rw [Nat.add_zero] at hb
    constructor
    · intro hst
      refine ⟨[.sleepMs 1000, .fetchStatus id,
        .setMessage ("Processing: " ++ b.status)], ?_, ?_⟩
      · simp [statusWrites]
      · simp [pollIter, hb, hst]
    · intro hst
      have hnf : b.status ≠ "failed" := by rw [hst]; decide
      refine ⟨[.sleepMs 1000, .fetchStatus id,
        .setMessage ("Processing: " ++ b.status)], ?_, ?_⟩
      · simp [statusWrites]
      · simp [pollIter, hb, hst, hnf]
  | succ n ih =>
    intro k fuel b hpre hb hfuel
    obtain ⟨f, rfl⟩ : ∃ f, fuel = f + 1 := ⟨fuel - 1, by omega⟩
    obtain ⟨b0, hb0, hns0, hnf0⟩ := hpre 0 (Nat.succ_pos n)
    rw [Nat.add_zero] at hb0
    have hpre' : ∀ j, j < n → okNonTerminal (env.pollResps (k + 1 + j)) := by
      intro j hj
      have h := hpre (j + 1) (by omega)
      rwa [show k + (j + 1) = k + 1 + j by omega] at h
    have hb' : env.pollResps (k + 1 + n) = .ok b := by
      rwa [show k + (n + 1) = k + 1 + n by omega] at hb
    have hrec := ih (k + 1) f b hpre' hb' (by omega)
    constructor
    · intro hst
      obtain ⟨tr0, htr0, heq⟩ := hrec.1 hst
      refine ⟨[.sleepMs 1000, .fetchStatus id,
        .setMessage ("Processing: " ++ b0.status)] ++ tr0, ?_, ?_⟩
      · rw [statusWrites_append, htr0]
        simp [statusWrites]
      · simp [pollIter, hb0, hns0, hnf0, heq]
    · intro hst
      obtain ⟨tr0, htr0, heq⟩ := hrec.2 hst
      refine ⟨[.sleepMs 1000, .fetchStatus id,
        .setMessage ("Processing: " ++ b0.status)] ++ tr0, ?_, ?_⟩
      · rw [statusWrites_append, htr0]
        simp [statusWrites]
      · simp [pollIter, hb0, hns0, hnf0, heq]

/-- For a creation response that is `ok` with a non-terminal status, the
`try` block is the four pre-loop effects followed by the poll loop. -/
theorem tryBlock_poll (env : Env) (fuel : Nat) (cb : CreateBody)
    (hc : env.createResp = .ok cb)
    (hcs : cb.status ≠ "succeeded") (hcf : cb.status ≠ "failed") :
    tryBlock env fuel
      = ([.setStatus .uploading, .setMessage "Starting image processing...",
          .fetchCreate, .setStatus .processing]
            ++ (pollIter env cb.id fuel 0).1,
         (pollIter env cb.id fuel 0).2) := by
  simp [tryBlock, hc, hcs, hcf]

/-! ### C5: remote job failure -/

/-- C5 counterexample: when the creation response itself already has
status `"failed"`, no error is raised at all — the loop guard is false,
the run finishes with UI status `processing` (not `error`), and there is
no error toast. -/
theorem remoteFailed_counterexample :
    envCreateFailed.createResp = CreateResponse.ok ⟨"p1", "failed"⟩ ∧
    (finalState pAll envCreateFailed 5).status = UIStatus.processing ∧
    (finalState pAll envCreateFailed 5).status ≠ UIStatus.error ∧
    Effect.toastError "Processing failed. Please try again."
      ∉ (handleProcess pAll envCreateFailed 5).1 := by
  refine ⟨rfl, rfl, by decide, by decide⟩

/-- C5 amended: whenever a *polled* status response reports `"failed"`
(the creation response being non-terminal so the loop runs, and all
earlier polls non-terminal), the workflow fails with the service-provided
error message when present and non-empty, else `Processing failed`, and
the final UI status is `error`.  (A creation response already in status
`"failed"` instead skips the loop and raises nothing.) -/
theorem remoteFailed_amended (p : Props) (env : Env) (fuel n : Nat)
    (b : PollBody) (cb : CreateBody)
    (hu : p.user = true) (hf : p.selectedFile = true)
    (hp : strTruthy p.previewUrl = true)
    (hc : env.createResp = .ok cb)
    (hcs : cb.status ≠ "succeeded") (hcf : cb.status ≠ "failed")
    (hpre : ∀ j, j < n → okNonTerminal (env.pollResps j))
    (hb : env.pollResps n = .ok b)
    (hfail : b.status = "failed")
    (hfuel : n < fuel) :
    (finalState p env fuel).status = UIStatus.error ∧
    (finalState p env fuel).message = jsOr b.error "Processing failed" ∧
    (∀ s, b.error = some s → s ≠ "" → (finalState p env fuel).message = s) ∧
    (b.error = none →
      (finalState p env fuel).message = "Processing failed") ∧
    Effect.toastError "Processing failed. Please try again."
      ∈ (handleProcess p env fuel).1 := by
  have hpre0 : ∀ j, j < n → okNonTerminal (env.pollResps (0 + j)) := by
    intro j hj
    rw [Nat.zero_add]
    exact hpre j hj
  have hb0 : env.pollResps (0 + n) = .ok b := by rwa [Nat.zero_add]
  obtain ⟨tr0, htr0, heq⟩ :=
    (pollIter_reach env cb.id n 0 fuel b hpre0 hb0 hfuel).1 hfail
  have htry : tryBlock env fuel
      = ([.setStatus .uploading, .setMessage "Starting image processing...",
          .fetchCreate, .setStatus .processing] ++ tr0,
         .thrown (.error (jsOr b.error "Processing failed"))) := by
    rw [tryBlock_poll env fuel cb hc hcs hcf, heq]
  have htr := handleProcess_thrown p env fuel _ _ hu hf hp htry
  have hst : finalState p env fuel
      = ⟨.error, jsOr b.error "Processing failed"⟩ := by
    rw [finalState, htr, runState_catch]
    simp [catchMsg]
  refine ⟨by rw [hst], by rw [hst], ?_, ?_, ?_⟩
  · intro s hs hne
    rw [hst]
    simp [jsOr, hs, hne]
  · intro hnone
    rw [hst]
    simp [jsOr, hnone]
  · rw [htr]
    simp [catchEffects]

/-- Witness for C5 (amended) at a concrete input: the first poll answers
`"failed"` with `error: "oom"`; the final message is `oom`. -/
theorem remoteFailed_amended_witness :
    (finalState pAll envPollFailed 5).status = UIStatus.error ∧
    (finalState pAll envPollFailed 5).message
      = jsOr (some "oom") "Processing failed" ∧
    (∀ s, (some "oom" : Option String) = some s → s ≠ "" →
      (finalState pAll envPollFailed 5).message = s) ∧
    ((some "oom" : Option String) = none →
      (finalState pAll envPollFailed 5).message = "Processing failed") ∧
    Effect.toastError "Processing failed. Please try again."
      ∈ (handleProcess pAll envPollFailed 5).1 :=
  remoteFailed_amended pAll envPollFailed 5 0 ⟨"failed", .undef, some "oom"⟩
    ⟨"p1", "starting"⟩ rfl rfl rfl rfl (by decide) (by decide)
    (fun j hj => absurd hj (by omega)) rfl rfl (by omega)

/-! ### C1: successful flow -/

/-- C1: when creation succeeds with a non-terminal status and the polled
statuses are `"starting"`, `"processing"`, `"succeeded"`, the UI status
transitions uploading → processing → complete, the run finishes, and a
`processComplete` event is dispatched whose `detail.outputUrl` is the
output when it is a single URL and the first element when it is a
sequence of URLs. -/
theorem successFlow (p : Props) (env : Env) (fuel : Nat) (id : String)
    (b0 b1 b2 : PollBody)
    (hu : p.user = true) (hf : p.selectedFile = true)
    (hp : strTruthy p.previewUrl = true)
    (hc : env.createResp = .ok ⟨id, "starting"⟩)
    (h0 : env.pollResps 0 = .ok b0) (hs0 : b0.status = "starting")
    (h1 : env.pollResps 1 = .ok b1) (hs1 : b1.status = "processing")
    (h2 : env.pollResps 2 = .ok b2) (hs2 : b2.status = "succeeded")
    (hfuel : 2 < fuel) :
    statusWrites (handleProcess p env fuel).1
      = [UIStatus.uploading, UIStatus.processing, UIStatus.complete] ∧
    (handleProcess p env fuel).2 = RunOutcome.finished ∧
    Effect.dispatchProcessComplete (outputUrlOf b2.output)
      ∈ (handleProcess p env fuel).1 ∧
    (∀ s, b2.output = .str s → outputUrlOf b2.output = some s) ∧
    (∀ x xs, b2.output = .arr (x :: xs) → outputUrlOf b2.output = some x) ∧
    (finalState p env fuel).status = UIStatus.complete := by
  have hpre : ∀ j, j < 2 → okNonTerminal (env.pollResps (0 + j)) := by
    intro j hj
    rw [Nat.zero_add]
    match j, hj with
    | 0, _ => exact ⟨b0, h0, by rw [hs0]; decide, by rw [hs0]; decide⟩
    | 1, _ => exact ⟨b1, h1, by rw [hs1]; decide, by rw [hs1]; decide⟩
  have hb2 : env.pollResps (0 + 2) = .ok b2 := by rwa [Nat.zero_add]
  obtain ⟨tr0, htr0, heq⟩ :=
    (pollIter_reach env id 2 0 fuel b2 hpre hb2 hfuel).2 hs2
  have htry : tryBlock env fuel
      = ([.setStatus .uploading, .setMessage "Starting image processing...",
          .fetchCreate, .setStatus .processing]
          ++ (tr0 ++ [.setStatus .complete, .setMessage "Processing complete!",
              .dispatchProcessComplete (outputUrlOf b2.output)]),
         .done) := by
    rw [tryBlock_poll env fuel ⟨id, "starting"⟩ hc
      (by show "starting" ≠ "succeeded"; decide)
      (by show "starting" ≠ "failed"; decide)]
    rw [show (CreateBody.mk id "starting").id = id from rfl, heq]
  have htr : handleProcess p env fuel
      = ([.setStatus .uploading, .setMessage "Starting image processing...",
          .fetchCreate, .setStatus .processing]
          ++ (tr0 ++ [.setStatus .complete, .setMessage "Processing complete!",
              .dispatchProcessComplete (outputUrlOf b2.output)]),
         .finished) := by
    simp [handleProcess, hu, hf, hp, htry]
  refine ⟨?_, ?_, ?_, ?_, ?_, ?_⟩
  · rw [htr]
    show statusWrites (_ ++ (tr0 ++ _)) = _
    rw [statusWrites_append, statusWrites_append, htr0]
    simp [statusWrites]
  · rw [htr]
  · rw [htr]
    simp
  · intro s hs
    rw [hs]
    rfl
  · intro x xs hs
    rw [hs]
    rfl
  · rw [finalState, htr, runState_append, runState_append]
    simp [runState, applyEffect]

/-- Witness for C1 at a concrete input: a single output URL. -/
theorem successFlow_witness :
    statusWrites (handleProcess pAll envSuccess 5).1
      = [UIStatus.uploading, UIStatus.processing, UIStatus.complete] ∧
    (handleProcess pAll envSuccess 5).2 = RunOutcome.finished ∧
    Effect.dispatchProcessComplete
        (outputUrlOf (.str "https://x/out.png"))
      ∈ (handleProcess pAll envSuccess 5).1 ∧
    (∀ s, JsOutput.str "https://x/out.png" = .str s →
      outputUrlOf (.str "https://x/out.png") = some s) ∧
    (∀ x xs, JsOutput.str "https://x/out.png" = .arr (x :: xs) →
      outputUrlOf (.str "https://x/out.png") = some x) ∧
    (finalState pAll envSuccess 5).status = UIStatus.complete :=
  successFlow pAll envSuccess 5 "p1"
    ⟨"starting", .undef, none⟩ ⟨"processing", .undef, none⟩
    ⟨"succeeded", .str "https://x/out.png", none⟩
    rfl rfl rfl rfl rfl rfl rfl rfl rfl rfl (by omega)

/-! ### C9: no timeout ceiling, no cancellation -/

/-- When every status response is `ok` and non-terminal, the poll loop
consumes all its fuel, performing one status fetch per iteration, and is
still running at the end. -/
theorem pollIter_nonterminal (env : Env) (id : String)
    (hall : ∀ k, okNonTerminal (env.pollResps k)) :
    ∀ fuel k, (pollIter env id fuel k).2 = TryResult.outOfFuel ∧
      statusFetchCount (pollIter env id fuel k).1 = fuel := by
  intro fuel
  induction fuel with
  | zero =>
    intro k
    simp [pollIter, statusFetchCount]
  | succ f ih =>
    intro k
    obtain ⟨b, hb, hns, hnf⟩ := hall k
    have hrec := ih (k + 1)
    constructor
    · simp [pollIter, hb, hns, hnf, hrec.1]
    · simp [pollIter, hb, hns, hnf, statusFetchCount, isStatusFetch,
        List.filter_append]
      have h2 : statusFetchCount (pollIter env id f (k + 1)).1 = f := hrec.2
      rw [statusFetchCount] at h2
      omega

/-- C9: for every environment in which the statuses never turn terminal,
the poll loop never terminates: whatever the fuel, the run is still
going and has performed exactly `fuel` status fetches — there is no
timeout ceiling and no cancellation. -/
theorem pollForever (p : Props) (env : Env) (cb : CreateBody)
    (hu : p.user = true) (hf : p.selectedFile = true)
    (hp : strTruthy p.previewUrl = true)
    (hc : env.createResp = .ok cb)
    (hcs : cb.status ≠ "succeeded") (hcf : cb.status ≠ "failed")
    (hall : ∀ k, okNonTerminal (env.pollResps k))
    (fuel : Nat) :
    (handleProcess p env fuel).2 = RunOutcome.running ∧
    statusFetchCount (handleProcess p env fuel).1 = fuel := by
  have hpoll := pollIter_nonterminal env cb.id hall fuel 0
  have htry := tryBlock_poll env fuel cb hc hcs hcf
  have htr : handleProcess p env fuel
      = ([.setStatus .uploading, .setMessage "Starting image processing...",
          .fetchCreate, .setStatus .processing]
          ++ (pollIter env cb.id fuel 0).1, .running) := by
    simp [handleProcess, hu, hf, hp, htry, hpoll.1]
  constructor
  · rw [htr]
  · rw [htr]
    show statusFetchCount (_ ++ _) = fuel
    rw [statusFetchCount, List.filter_append]
    have h2 := hpoll.2
    rw [statusFetchCount] at h2
    simp [isStatusFetch, h2]

/-- Witness for C9 at a concrete input and fuel 5. -/
theorem pollForever_witness :
    (handleProcess pAll envIdle 5).2 = RunOutcome.running ∧
    statusFetchCount (handleProcess pAll envIdle 5).1 = 5 :=
  pollForever pAll envIdle ⟨"p1", "starting"⟩ rfl rfl rfl rfl
    (by decide) (by decide)
    (fun _ => ⟨⟨"processing", .undef, none⟩, rfl, by decide, by decide⟩) 5

/-! ### C7: forward-only status transitions -/

/-- The poll loop writes the UI status at most once: never, or a single
`complete` write when it reacts to a `"succeeded"` poll and returns
normally. -/
theorem pollIter_writes (env : Env) (id : String) :
    ∀ fuel k,
    statusWrites (pollIter env id fuel k).1 = [] ∨
    (statusWrites (pollIter env id fuel k).1 = [UIStatus.complete] ∧
      (pollIter env id fuel k).2 = TryResult.done) := by
  intro fuel
  induction fuel with
  | zero =>
    intro k
    left
    simp [pollIter, statusWrites]
  | succ f ih =>
    intro k
    match hres : env.pollResps k with
    | .exn t =>
      left
      simp [pollIter, hres, statusWrites]
    | .notOk =>
      left
      simp [pollIter, hres, statusWrites]
    | .ok body =>
      by_cases hfail : body.status = "failed"
      · left
        simp [pollIter, hres, hfail, statusWrites]
      · by_cases hsucc : body.status = "succeeded"
        · right
          constructor <;> simp [pollIter, hres, hfail, hsucc, statusWrites]
        · have hshape : (pollIter env id (f + 1) k).1
              = [.sleepMs 1000, .fetchStatus id,
                 .setMessage ("Processing: " ++ body.status)]
                ++ (pollIter env id f (k + 1)).1 := by
            simp [pollIter, hres, hfail, hsucc]
          have hres2 : (pollIter env id (f + 1) k).2
              = (pollIter env id f (k + 1)).2 := by
            simp [pollIter, hres, hfail, hsucc]
          rcases ih (k + 1) with h | ⟨h1, h2⟩
          · left
            rw [hshape, statusWrites_append, h]
            simp [statusWrites]
          · right
            refine ⟨?_, by rw [hres2]; exact h2⟩
            rw [hshape, statusWrites_append, h1]
            simp [statusWrites]

/-- The status writes of the `try` block, by case on the creation
response: `[uploading]` before a throw, `[uploading, processing]`, or
`[uploading, processing, complete]` on a completed success. -/
theorem tryBlock_writes (env : Env) (fuel : Nat) :
    (statusWrites (tryBlock env fuel).1 = [UIStatus.uploading] ∧
      ∃ t, (tryBlock env fuel).2 = TryResult.thrown t) ∨
    statusWrites (tryBlock env fuel).1
      = [UIStatus.uploading, UIStatus.processing] ∨
    (statusWrites (tryBlock env fuel).1
      = [UIStatus.uploading, UIStatus.processing, UIStatus.complete] ∧
      (tryBlock env fuel).2 = TryResult.done) := by
  match hc : env.createResp with
  | .exn t =>
    left
    constructor
    · simp [tryBlock, hc, statusWrites]
    · exact ⟨t, by simp [tryBlock, hc]⟩
  | .notOk e =>
    left
    constructor
    · simp [tryBlock, hc, statusWrites]
    · exact ⟨.error (jsOr e "Failed to process image"), by simp [tryBlock, hc]⟩
  | .ok body =>
    by_cases hg : body.status ≠ "succeeded" ∧ body.status ≠ "failed"
    · have hshape : (tryBlock env fuel).1
          = [.setStatus .uploading, .setMessage "Starting image processing...",
             .fetchCreate, .setStatus .processing]
            ++ (pollIter env body.id fuel 0).1 := by
        simp [tryBlock, hc, hg]
      have hres : (tryBlock env fuel).2 = (pollIter env body.id fuel 0).2 := by
        simp [tryBlock, hc, hg]
      rcases pollIter_writes env body.id fuel 0 with h | ⟨h1, h2⟩
      · right; left
        rw [hshape, statusWrites_append, h]
        simp [statusWrites]
      · right; right
        refine ⟨?_, by rw [hres]; exact h2⟩
        rw [hshape, statusWrites_append, h1]
        simp [statusWrites]
    · right; left
      simp [tryBlock, hc, hg, statusWrites]

/-- The status writes of one whole invocation of `handleProcess` take one
of five shapes. -/
theorem run_writes_shape (p : Props) (env : Env) (fuel : Nat) :
    statusWrites (handleProcess p env fuel).1 = [] ∨
    statusWrites (handleProcess p env fuel).1
      = [UIStatus.uploading, UIStatus.error] ∨
    statusWrites (handleProcess p env fuel).1
      = [UIStatus.uploading, UIStatus.processing] ∨
    statusWrites (handleProcess p env fuel).1
      = [UIStatus.uploading, UIStatus.processing, UIStatus.complete] ∨
    statusWrites (handleProcess p env fuel).1
      = [UIStatus.uploading, UIStatus.processing, UIStatus.error] := by
  cases hu : p.user with
  | false =>
    left
    simp [handleProcess, hu, statusWrites]
  | true =>
    cases hf : p.selectedFile with
    | false =>
      left
      simp [handleProcess, hu, hf, statusWrites]
    | true =>
      cases hp : strTruthy p.previewUrl with
      | false =>
        left
        simp [handleProcess, hu, hf, hp, statusWrites]
      | true =>
        match htry : tryBlock env fuel with
        | (tr, .done) =>
          have htr : handleProcess p env fuel = (tr, .finished) := by
            simp [handleProcess, hu, hf, hp, htry]
          rcases tryBlock_writes env fuel with ⟨h, t, hres⟩ | h | ⟨h, hres⟩
          · rw [htry] at hres
            exact absurd hres (by simp)
          · right; right; left
            rw [htr]
            rw [htry] at h
            exact h
          · right; right; right; left
            rw [htr]
            rw [htry] at h
            exact h
        | (tr, .outOfFuel) =>
          have htr : handleProcess p env fuel = (tr, .running) := by
            simp [handleProcess, hu, hf, hp, htry]
          rcases tryBlock_writes env fuel with ⟨h, t, hres⟩ | h | ⟨h, hres⟩
          · rw [htry] at hres
            exact absurd hres (by simp)
          · right; right; left
            rw [htr]
            rw [htry] at h
            exact h
          · rw [htry] at hres
            exact absurd hres (by simp)
        | (tr, .thrown t) =>
          have htr : handleProcess p env fuel
              = (tr ++ catchEffects t, .finished) := by
            simp [handleProcess, hu, hf, hp, htry]
          rcases tryBlock_writes env fuel with ⟨h, t2, hres⟩ | h | ⟨h, hres⟩
          · right; left
            rw [htr, statusWrites_append]
            rw [htry] at h
            rw [h]
            simp [statusWrites, catchEffects]
          · right; right; right; right
            rw [htr, statusWrites_append]
            rw [htry] at h
            rw [h]
            simp [statusWrites, catchEffects]
          · rw [htry] at hres
            exact absurd hres (by simp)

/-- Across any sequence of complete invocations, from any starting
status, the status writes form a chain of forward transitions and resets
to `uploading`. -/
theorem chain_runs (runs : List (Props × Env × Nat)) :
    ∀ s : UIStatus, List.Chain stepOK s (statusWrites (runsTrace runs)) := by
  induction runs with
  | nil =>
    intro s
    show List.Chain stepOK s (statusWrites [])
    simp only [statusWrites, List.filterMap_nil]
    exact List.Chain.nil
  | cons hd tl ih =>
    intro s
    obtain ⟨p, env, fuel⟩ := hd
    show List.Chain stepOK s
      (statusWrites ((handleProcess p env fuel).1 ++ runsTrace tl))
    rw [statusWrites_append]
    rcases run_writes_shape p env fuel with h | h | h | h | h <;> rw [h]
    · exact ih s
    · exact List.Chain.cons (Or.inr rfl)
        (List.Chain.cons (Or.inl (by decide)) (ih _))
    · exact List.Chain.cons (Or.inr rfl)
        (List.Chain.cons (Or.inl (by decide)) (ih _))
    · exact List.Chain.cons (Or.inr rfl)
        (List.Chain.cons (Or.inl (by decide))
          (List.Chain.cons (Or.inl (by decide)) (ih _)))
    · exact List.Chain.cons (Or.inr rfl)
        (List.Chain.cons (Or.inl (by decide))
          (List.Chain.cons (Or.inl (by decide)) (ih _)))

/-- C7: within one invocation started from `idle`, the UI status only
moves forward through idle → uploading → processing → (complete | error);
and across any sequence of invocations, every status write is either a
forward transition or a fresh submission's reset to `uploading`. -/
theorem statusForward (p : Props) (env : Env) (fuel : Nat)
    (runs : List (Props × Env × Nat)) :
    List.Chain (fun a b => rank a < rank b) UIStatus.idle
      (statusWrites (handleProcess p env fuel).1) ∧
    List.Chain stepOK UIStatus.idle (statusWrites (runsTrace runs)) := by
  constructor
  · rcases run_writes_shape p env fuel with h | h | h | h | h <;> rw [h] <;>
      repeat first
        | exact List.Chain.nil
        | refine List.Chain.cons (by decide) ?_
  · exact chain_runs runs UIStatus.idle

/-! ### C8: polling interval and no fetch after terminal -/

theorem fetchTimes_append :
    ∀ (a b : List Effect) (t : Nat),
    fetchTimes (a ++ b) t = fetchTimes a t ++ fetchTimes b (t + elapsed a) := by
  intro a
  induction a with
  | nil =>
    intro b t
    simp [fetchTimes, elapsed]
  | cons e rest ih =>
    intro b t
    cases e <;> simp [fetchTimes, elapsed, ih, Nat.add_assoc]

/-- Each status fetch of the poll loop happens exactly one sleep of
1000 ms after the previous one: starting the clock at `t ≥ a`, the fetch
times form a chain with gaps of at least 1000 ms from `a`. -/
theorem pollIter_times (env : Env) (id : String) :
    ∀ fuel k t a, a ≤ t →
      List.Chain (fun x y => x + 1000 ≤ y) a
        (fetchTimes (pollIter env id fuel k).1 t) := by
  intro fuel
  induction fuel with
  | zero =>
    intro k t a _
    simp only [pollIter, fetchTimes]
    exact List.Chain.nil
  | succ f ih =>
    intro k t a ha
    match hres : env.pollResps k with
    | .exn t' =>
      have hshape : (pollIter env id (f + 1) k).1
          = [.sleepMs 1000, .fetchStatus id] := by
        simp [pollIter, hres]
      rw [hshape]
      simp only [fetchTimes]
      exact List.Chain.cons (by omega) List.Chain.nil
    | .notOk =>
      have hshape : (pollIter env id (f + 1) k).1
          = [.sleepMs 1000, .fetchStatus id] := by
        simp [pollIter, hres]
      rw [hshape]
      simp only [fetchTimes]
      exact List.Chain.cons (by omega) List.Chain.nil
    | .ok body =>
      by_cases hfail : body.status = "failed"
      · have hshape : (pollIter env id (f + 1) k).1
            = [.sleepMs 1000, .fetchStatus id,
               .setMessage ("Processing: " ++ body.status)] := by
          simp [pollIter, hres, hfail]
        rw [hshape]
        simp only [fetchTimes]
        exact List.Chain.cons (by omega) List.Chain.nil
      · by_cases hsucc : body.status = "succeeded"
        · have hshape : (pollIter env id (f + 1) k).1
              = [.sleepMs 1000, .fetchStatus id,
                 .setMessage ("Processing: " ++ body.status),
                 .setStatus .complete, .setMessage "Processing complete!",
                 .dispatchProcessComplete (outputUrlOf body.output)] := by
            simp [pollIter, hres, hfail, hsucc]
          rw [hshape]
          simp only [fetchTimes]
          exact List.Chain.cons (by omega) List.Chain.nil
        · have hshape : (pollIter env id (f + 1) k).1
              = [.sleepMs 1000, .fetchStatus id,
                 .setMessage ("Processing: " ++ body.status)]
                ++ (pollIter env id f (k + 1)).1 := by
            simp [pollIter, hres, hfail, hsucc]
          rw [hshape, fetchTimes_append]
          simp only [fetchTimes, elapsed]
          have hch := ih (k + 1) (t + 1000) (t + 1000) (Nat.le_refl _)
          refine List.Chain.cons (by omega) ?_
          have harith : t + (1000 + 0) = t + 1000 := by omega
          rw [harith]
          exact hch

theorem fetchTimes_catch (t : Thrown) (u : Nat) :
    fetchTimes (catchEffects t) u = [] := by
  simp [catchEffects, fetchTimes]

/-- C8 part (a) for the whole run: the fetch times of any run, starting
the clock at 0, are spaced at least 1000 ms apart (and the first fetch
happens no earlier than 1000 ms). -/
theorem run_times (p : Props) (env : Env) (fuel : Nat) :
    List.Chain (fun x y => x + 1000 ≤ y) 0
      (fetchTimes (handleProcess p env fuel).1 0) := by
  cases hu : p.user with
  | false =>
    have htr : (handleProcess p env fuel).1
        = [.toastError "Please log in to continue"] := by
      simp [handleProcess, hu]
    rw [htr]
    simp only [fetchTimes]
    exact List.Chain.nil
  | true =>
    cases hf : p.selectedFile with
    | false =>
      have htr : (handleProcess p env fuel).1 = [] := by
        simp [handleProcess, hu, hf]
      rw [htr]
      simp only [fetchTimes]
      exact List.Chain.nil
    | true =>
      cases hp : strTruthy p.previewUrl with
      | false =>
        have htr : (handleProcess p env fuel).1 = [] := by
          simp [handleProcess, hu, hf, hp]
        rw [htr]
        simp only [fetchTimes]
        exact List.Chain.nil
      | true =>
        have hchain : List.Chain (fun x y => x + 1000 ≤ y) 0
            (fetchTimes (tryBlock env fuel).1 0) := by
          match hc : env.createResp with
          | .exn t =>
            have hshape : (tryBlock env fuel).1
                = [.setStatus .uploading,
                   .setMessage "Starting image processing...",
                   .fetchCreate] := by
              simp [tryBlock, hc]
            rw [hshape]
            simp only [fetchTimes]
            exact List.Chain.nil
          | .notOk e =>
            have hshape : (tryBlock env fuel).1
                = [.setStatus .uploading,
                   .setMessage "Starting image processing...",
                   .fetchCreate] := by
              simp [tryBlock, hc]
            rw [hshape]
            simp only [fetchTimes]
            exact List.Chain.nil
          | .ok body =>
            by_cases hg : body.status ≠ "succeeded" ∧ body.status ≠ "failed"
            · have hshape : (tryBlock env fuel).1
                  = [.setStatus .uploading,
                     .setMessage "Starting image processing...",
                     .fetchCreate, .setStatus .processing]
                    ++ (pollIter env body.id fuel 0).1 := by
                simp [tryBlock, hc, hg]
              rw [hshape, fetchTimes_append]
              simp only [fetchTimes, elapsed]
              exact pollIter_times env body.id fuel 0 (0 + 0) 0 (by omega)
            · have hshape : (tryBlock env fuel).1
                  = [.setStatus .uploading,
                     .setMessage "Starting image processing...",
                     .fetchCreate, .setStatus .processing] := by
                simp [tryBlock, hc, hg]
              rw [hshape]
              simp only [fetchTimes]
              exact List.Chain.nil
        match htry : tryBlock env fuel with
        | (tr, .done) =>
          have htr : (handleProcess p env fuel).1 = tr := by
            simp [handleProcess, hu, hf, hp, htry]
          rw [htr]
          rw [htry] at hchain
          exact hchain
        | (tr, .outOfFuel) =>
          have htr : (handleProcess p env fuel).1 = tr := by
            simp [handleProcess, hu, hf, hp, htry]
          rw [htr]
          rw [htry] at hchain
          exact hchain
        | (tr, .thrown t) =>
          have htr : (handleProcess p env fuel).1 = tr ++ catchEffects t := by
            simp [handleProcess, hu, hf, hp, htry]
          rw [htr, fetchTimes_append, fetchTimes_catch, List.append_nil]
          rw [htry] at hchain
          exact hchain

theorem pollIter_noFetchAfter (env : Env) (id : String) :
    ∀ fuel k (tail : List Effect),
      noFetchAfterTerminal tail = true → noStatusFetch tail = true →
      noFetchAfterTerminal ((pollIter env id fuel k).1 ++ tail) = true := by
  intro fuel
  induction fuel with
  | zero =>
    intro k tail h1 _
    have hnil : (pollIter env id 0 k).1 = [] := rfl
    rw [hnil, List.nil_append]
    exact h1
  | succ f ih =>
    intro k tail h1 h2
    match hres : env.pollResps k with
    | .exn t' =>
      have hshape : (pollIter env id (f + 1) k).1
          = [.sleepMs 1000, .fetchStatus id] := by
        simp [pollIter, hres]
      rw [hshape]
      simp only [List.cons_append, List.nil_append, noFetchAfterTerminal]
      exact h1
    | .notOk =>
      have hshape : (pollIter env id (f + 1) k).1
          = [.sleepMs 1000, .fetchStatus id] := by
        simp [pollIter, hres]
      rw [hshape]
      simp only [List.cons_append, List.nil_append, noFetchAfterTerminal]
      exact h1
    | .ok body =>
      by_cases hfail : body.status = "failed"
      · have hshape : (pollIter env id (f + 1) k).1
            = [.sleepMs 1000, .fetchStatus id,
               .setMessage ("Processing: " ++ body.status)] := by
          simp [pollIter, hres, hfail]
        rw [hshape]
        simp only [List.cons_append, List.nil_append, noFetchAfterTerminal]
        exact h1
      · by_cases hsucc : body.status = "succeeded"
        · have hshape : (pollIter env id (f + 1) k).1
              = [.sleepMs 1000, .fetchStatus id,
                 .setMessage ("Processing: " ++ body.status),
                 .setStatus .complete, .setMessage "Processing complete!",
                 .dispatchProcessComplete (outputUrlOf body.output)] := by
            simp [pollIter, hres, hfail, hsucc]
          rw [hshape]
          simp only [List.cons_append, List.nil_append, noFetchAfterTerminal]
          simp only [noStatusFetch, List.append_eq, List.cons_append,
            List.nil_append, List.all_cons] at h2 ⊢
          rw [h2]
          rfl
        · have hshape : (pollIter env id (f + 1) k).1
              = [.sleepMs 1000, .fetchStatus id,
                 .setMessage ("Processing: " ++ body.status)]
                ++ (pollIter env id f (k + 1)).1 := by
            simp [pollIter, hres, hfail, hsucc]
          rw [hshape, List.append_assoc]
          simp only [List.cons_append, List.nil_append, noFetchAfterTerminal]
          exact ih (k + 1) tail h1 h2

theorem catch_noFetchAfter (t : Thrown) :
    noFetchAfterTerminal (catchEffects t) = true ∧
    noStatusFetch (catchEffects t) = true := by
  constructor <;>
    simp [catchEffects, noFetchAfterTerminal, noStatusFetch, isStatusFetch]

theorem tryBlock_noFetchAfter (env : Env) (fuel : Nat) (tail : List Effect)
    (h1 : noFetchAfterTerminal tail = true)
    (h2 : noStatusFetch tail = true) :
    noFetchAfterTerminal ((tryBlock env fuel).1 ++ tail) = true := by
  match hc : env.createResp with
  | .exn t =>
    have hshape : (tryBlock env fuel).1
        = [.setStatus .uploading, .setMessage "Starting image processing...",
           .fetchCreate] := by
      simp [tryBlock, hc]
    rw [hshape]
    simp only [List.cons_append, List.nil_append, noFetchAfterTerminal]
    exact h1
  | .notOk e =>
    have hshape : (tryBlock env fuel).1
        = [.setStatus .uploading, .setMessage "Starting image processing...",
           .fetchCreate] := by
      simp [tryBlock, hc]
    rw [hshape]
    simp only [List.cons_append, List.nil_append, noFetchAfterTerminal]
    exact h1
  | .ok body =>
    by_cases hg : body.status ≠ "succeeded" ∧ body.status ≠ "failed"
    · have hshape : (tryBlock env fuel).1
          = [.setStatus .uploading, .setMessage "Starting image processing...",
             .fetchCreate, .setStatus .processing]
            ++ (pollIter env body.id fuel 0).1 := by
        simp [tryBlock, hc, hg]
      rw [hshape, List.append_assoc]
      simp only [List.cons_append, List.nil_append, noFetchAfterTerminal]
      exact pollIter_noFetchAfter env body.id fuel 0 tail h1 h2
    · have hshape : (tryBlock env fuel).1
          = [.setStatus .uploading, .setMessage "Starting image processing...",
             .fetchCreate, .setStatus .processing] := by
        simp [tryBlock, hc, hg]
      rw [hshape]
      simp only [List.cons_append, List.nil_append, noFetchAfterTerminal]
      exact h1

/-- C8 part (b) for the whole run: once the run has reacted to a terminal
observation — UI status set to `complete` on a `"succeeded"` poll, or to
`error` by the catch handler (reached in particular on a `"failed"`
poll) — no status fetch occurs in the rest of the trace. -/
theorem run_noFetchAfter (p : Props) (env : Env) (fuel : Nat) :
    noFetchAfterTerminal (handleProcess p env fuel).1 = true := by
  cases hu : p.user with
  | false =>
    have htr : (handleProcess p env fuel).1
        = [.toastError "Please log in to continue"] := by
      simp [handleProcess, hu]
    rw [htr]
    rfl
  | true =>
    cases hf : p.selectedFile with
    | false =>
      have htr : (handleProcess p env fuel).1 = [] := by
        simp [handleProcess, hu, hf]
      rw [htr]
      rfl
    | true =>
      cases hp : strTruthy p.previewUrl with
      | false =>
        have htr : (handleProcess p env fuel).1 = [] := by
          simp [handleProcess, hu, hf, hp]
        rw [htr]
        rfl
      | true =>
        match htry : tryBlock env fuel with
        | (tr, .done) =>
          have htr : (handleProcess p env fuel).1 = tr := by
            simp [handleProcess, hu, hf, hp, htry]
          have h := tryBlock_noFetchAfter env fuel [] rfl rfl
          rw [List.append_nil, htry] at h
          rw [htr]
          exact h
        | (tr, .outOfFuel) =>
          have htr : (handleProcess p env fuel).1 = tr := by
            simp [handleProcess, hu, hf, hp, htry]
          have h := tryBlock_noFetchAfter env fuel [] rfl rfl
          rw [List.append_nil, htry] at h
          rw [htr]
          exact h
        | (tr, .thrown t) =>
          have htr : (handleProcess p env fuel).1 = tr ++ catchEffects t := by
            simp [handleProcess, hu, hf, hp, htry]
          have h := tryBlock_noFetchAfter env fuel (catchEffects t)
            (catch_noFetchAfter t).1 (catch_noFetchAfter t).2
          rw [htry] at h
          rw [htr]
          exact h

/-- C8: in every run, the status fetches happen at least the configured
1000 ms apart (each is preceded by the 1-second sleep, so with the clock
started at 0 the fetch times chain with gaps of at least 1000 ms), and no
status fetch occurs after the run has reacted to a terminal status
(status set to `complete` on `"succeeded"`, or to `error` by the catch
handler on `"failed"` or any other throw). -/
theorem pollingInterval (p : Props) (env : Env) (fuel : Nat) :
    List.Chain (fun x y => x + 1000 ≤ y) 0
      (fetchTimes (handleProcess p env fuel).1 0) ∧
    noFetchAfterTerminal (handleProcess p env fuel).1 = true :=
  ⟨run_times p env fuel, run_noFetchAfter p env fuel⟩

end ImageProcessor
